import Mathlib

/-!
Verification development for `torch/ao/quantization/fx/_model_report/model_report_visualizer.py`.

The Python module defines `ModelReportVisualizer`, which holds an ordered mapping
(`generated_reports`) from module fqn to a mapping from feature name to value, and
renders it as two tables (tensor-level and channel-level).  We embed the report data
model and every operation the claims touch.

Modelling decisions, all read off the source:
* An ordered Python dict is a `List` of key/value pairs in insertion order.
* A feature value is one of: a 0-dimensional `torch.Tensor`, a plain Python number,
  a 1-dimensional `torch.Tensor`, or a plain Python sequence of numbers.  Numeric
  payloads are `ℚ` (the code never computes with them, it only moves them around).
* Python exceptions are the error side of `Except Err`:
  - `iter(x)` on a scalar raises `TypeError` (caught by the classification loop);
  - `x[i]` out of range on a sequence or on a 0-dim tensor raises `IndexError`;
  - `x[i]` on a plain number raises `TypeError`;
  - `.item()` on a tensor with more than one element raises a `RuntimeError`.
* `tabulate` is an external collaborator absent from the sources; it is modelled
  from the spec (see `tabulate` below).
-/

/-- A feature value as the source dynamically distinguishes them:
`tensorScalar` is a 0-dim `torch.Tensor`, `plainScalar` a plain Python number,
`tensorSeq` a 1-dim `torch.Tensor`, `plainSeq` a plain Python sequence. -/
inductive FeatureValue where
  | tensorScalar (v : ℚ)
  | plainScalar (v : ℚ)
  | tensorSeq (vs : List ℚ)
  | plainSeq (vs : List ℚ)
deriving DecidableEq

/-- A Python dict mapping feature name to value, in insertion order. -/
abbrev FeatureMap := List (String × FeatureValue)

/-- The `generated_reports` ordered dict: module fqn to feature map, in model order. -/
abbrev Report := List (String × FeatureMap)

/-- Whether `iter(value)` succeeds (sequences and 1-dim tensors) or raises
`TypeError` (numbers and 0-dim tensors), as in the classification loop. -/
def isIterable : FeatureValue → Bool
  | .tensorSeq _ => true
  | .plainSeq _ => true
  | _ => false

/-- The source check `type(value) == torch.Tensor`. -/
def isTensorType : FeatureValue → Bool
  | .tensorScalar _ => true
  | .tensorSeq _ => true
  | _ => false

/-- Python `len(value)` for the iterable values (the source only applies it there). -/
def seqLen : FeatureValue → Nat
  | .tensorSeq vs => vs.length
  | .plainSeq vs => vs.length
  | _ => 0

/-- Whether `needle` is a leading piece of `hay` (helper for `pyIn`). -/
def startsList : List Char → List Char → Bool
  | [], _ => true
  | _ :: _, [] => false
  | a :: as, b :: bs => a == b && startsList as bs

/-- Substring containment on character lists (helper for `pyIn`). -/
def containsList (needle : List Char) : List Char → Bool
  | [] => needle.isEmpty
  | b :: bs => startsList needle (b :: bs) || containsList needle bs

/-- The Python string operator `needle in hay` (substring containment). -/
def pyIn (needle hay : String) : Bool :=
  containsList needle.data hay.data

/-- The source module test `module_fqn_filter == "" or module_fqn_filter in module_fqn`. -/
def moduleMatches (module_fqn_filter fqn : String) : Bool :=
  module_fqn_filter == "" || pyIn module_fqn_filter fqn

/-- The source feature test `feature_filter == "" or feature_filter in feature_name`. -/
def featureMatches (feature_filter name : String) : Bool :=
  feature_filter == "" || pyIn feature_filter name

/-- The inner loop of `_get_filtered_data`: keep the features that pass the filter. -/
def filterFeatures (feature_filter : String) : FeatureMap → FeatureMap
  | [] => []
  | p :: ps =>
    if featureMatches feature_filter p.1 then p :: filterFeatures feature_filter ps
    else filterFeatures feature_filter ps

/-- `ModelReportVisualizer._get_filtered_data`: module-level filtering first, then
feature-level filtering, preserving the report order; a module that passes the
module filter is kept even when none of its features pass. -/
def _get_filtered_data (r : Report) (feature_filter module_fqn_filter : String) : Report :=
  match r with
  | [] => []
  | m :: ms =>
    if moduleMatches module_fqn_filter m.1 then
      (m.1, filterFeatures feature_filter m.2) :: _get_filtered_data ms feature_filter module_fqn_filter
    else
      _get_filtered_data ms feature_filter module_fqn_filter

/-- The (module, feature) pairs in the order the nested loops of the source scan them. -/
def scanPairs (fd : Report) : List (String × FeatureValue) :=
  fd.flatMap (fun m => m.2)

/-- The set built by `unique_feature_names.add(...)` over one scan, with the
`plottable` type gate `type(value) == torch.Tensor` of the source. -/
def collectFeatureNames (plottable : Bool) : List (String × FeatureValue) → Finset String
  | [] => ∅
  | p :: ps =>
    if plottable then
      (if isTensorType p.2 then insert p.1 (collectFeatureNames plottable ps)
       else collectFeatureNames plottable ps)
    else insert p.1 (collectFeatureNames plottable ps)

/-- `ModelReportVisualizer.get_all_unique_feature_names`. -/
def get_all_unique_feature_names (r : Report) (plottable : Bool) : Finset String :=
  collectFeatureNames plottable (scanPairs r)

/-- Names added to `tensor_features` by the classification loop
(occurrences on which `iter` raises `TypeError`). -/
def tensorFeatureSet (fd : Report) : List String :=
  ((scanPairs fd).filter (fun p => !(isIterable p.2))).map (fun p => p.1)

/-- Names added to `channel_features` by the classification loop
(occurrences on which `iter` succeeds). -/
def channelFeatureSet (fd : Report) : List String :=
  ((scanPairs fd).filter (fun p => isIterable p.2)).map (fun p => p.1)

/-- The running `num_channels` variable of the classification loop: overwritten with
`len(feature_data)` at every iterable occurrence. -/
def numChannelsAux (acc : Nat) : List (String × FeatureValue) → Nat
  | [] => acc
  | p :: ps => numChannelsAux (if isIterable p.2 then seqLen p.2 else acc) ps

/-- The final value of `num_channels` after the classification scan (0 if no
iterable value was seen). -/
def numChannels (fd : Report) : Nat :=
  numChannelsAux 0 (scanPairs fd)

/-- Lexicographic string order by code point, matching Python string comparison. -/
def lexLe : List Char → List Char → Bool
  | [], _ => true
  | _ :: _, [] => false
  | a :: as, b :: bs =>
    if a.val.toNat < b.val.toNat then true
    else if b.val.toNat < a.val.toNat then false
    else lexLe as bs

/-- Boolean string comparison used to model Python `sorted`. -/
def strLeB (a b : String) : Bool :=
  lexLe a.data b.data

/-- Propositional form of `strLeB` for `List.insertionSort`. -/
def strLeR (a b : String) : Prop :=
  strLeB a b = true

instance : DecidableRel strLeR := fun a b => instDecidableEqBool (strLeB a b) true

/-- Python `sorted(list(some_set))`: the distinct elements in ascending order. -/
def sortedFeatureList (names : List String) : List String :=
  List.insertionSort strLeR names.dedup

/-- `tensor_features_list` of the source: `sorted(list(tensor_features))`. -/
def tensorFeaturesList (fd : Report) : List String :=
  sortedFeatureList (tensorFeatureSet fd)

/-- `channel_features_list` of the source: `sorted(list(channel_features))`. -/
def channelFeaturesList (fd : Report) : List String :=
  sortedFeatureList (channelFeatureSet fd)

/-- A table cell: row index, string, extracted number, or a raw sequence value
(a plain Python list lands in a cell unchanged when its feature was classified
tensor-level by another module). -/
inductive Cell where
  | nat (n : Nat)
  | str (s : String)
  | num (v : ℚ)
  | seq (vs : List ℚ)
deriving DecidableEq

/-- The Python exceptions the table construction can raise, plus the
not-implemented error the spec ascribes to the stub views. -/
inductive Err where
  | indexError
  | typeError
  | runtimeError
  | notImplementedError
deriving DecidableEq

abbrev Table := List (List Cell)

/-- The returned dict, as an association list with its two fixed keys. -/
abbrev TableDict := List (String × Table)

def TABLE_TENSOR_KEY : String := "tensor_level_info"

def TABLE_CHANNEL_KEY : String := "channel_level_info"

/-- Python dict lookup `fm[f]` restricted to present keys (`f in fm` guards it). -/
def lookupFeature (fm : FeatureMap) (f : String) : Option FeatureValue :=
  match fm.find? (fun p => p.1 == f) with
  | some p => some p.2
  | none => none

/-- One tensor-table cell: the feature value if present else `"Not Applicable"`,
with `.item()` applied when the value is a `torch.Tensor` (`.item()` on a tensor
with more than one element raises a `RuntimeError`). -/
def tensorCell (fm : FeatureMap) (f : String) : Except Err Cell :=
  match lookupFeature fm f with
  | none => .ok (.str "Not Applicable")
  | some (.plainScalar v) => .ok (.num v)
  | some (.tensorScalar v) => .ok (.num v)
  | some (.plainSeq vs) => .ok (.seq vs)
  | some (.tensorSeq vs) =>
    match vs with
    | [v] => .ok (.num v)
    | _ => .error .runtimeError

/-- One channel-table cell: `fm[f][channel]` if the feature is present else
`"Not Applicable"`; indexing a plain number raises `TypeError`, indexing a
0-dim tensor or indexing out of range raises `IndexError`, and a tensor element
is extracted with `.item()`. -/
def channelCell (fm : FeatureMap) (f : String) (channel : Nat) : Except Err Cell :=
  match lookupFeature fm f with
  | none => .ok (.str "Not Applicable")
  | some (.plainScalar _) => .error .typeError
  | some (.tensorScalar _) => .error .indexError
  | some (.plainSeq vs) =>
    match vs[channel]? with
    | some v => .ok (.num v)
    | none => .error .indexError
  | some (.tensorSeq vs) =>
    match vs[channel]? with
    | some v => .ok (.num v)
    | none => .error .indexError

/-- Evaluate the per-feature cells of one row left to right, stopping at the
first raised exception, as the Python inner loop does. -/
def mapCells (g : String → Except Err Cell) : List String → Except Err (List Cell)
  | [] => .ok []
  | f :: fs =>
    match g f with
    | .error e => .error e
    | .ok c =>
      match mapCells g fs with
      | .error e => .error e
      | .ok cs => .ok (c :: cs)

/-- One data row of the tensor table: `[index + 1, module_fqn, cells...]`. -/
def tensorRow (tfl : List String) (index : Nat) (fqn : String) (fm : FeatureMap) : Except Err (List Cell) :=
  match mapCells (tensorCell fm) tfl with
  | .error e => .error e
  | .ok cells => .ok (Cell.nat (index + 1) :: Cell.str fqn :: cells)

/-- The data rows of the tensor table, one per filtered module, indices from `enumerate`. -/
def tensorRows (tfl : List String) (index : Nat) : Report → Except Err Table
  | [] => .ok []
  | m :: ms =>
    match tensorRow tfl index m.1 m.2 with
    | .error e => .error e
    | .ok row =>
      match tensorRows tfl (index + 1) ms with
      | .error e => .error e
      | .ok rest => .ok (row :: rest)

/-- The tensor-table header row `["idx", "layer_fqn"] + tensor_features_list`. -/
def tensorHeaders (tfl : List String) : List Cell :=
  (["idx", "layer_fqn"] ++ tfl).map Cell.str

/-- The complete tensor table: header row then data rows. -/
def tensorTable (fd : Report) (tfl : List String) : Except Err Table :=
  match tensorRows tfl 0 fd with
  | .error e => .error e
  | .ok rows => .ok (tensorHeaders tfl :: rows)

/-- The channel-table header row `["idx", "layer_fqn", "channel"] + channel_features_list`. -/
def channelHeaders (cfl : List String) : List Cell :=
  (["idx", "layer_fqn", "channel"] ++ cfl).map Cell.str

/-- One data row of the channel table:
`[channel_table_entry_counter, module_fqn, channel, cells...]`. -/
def channelRow (cfl : List String) (counter : Nat) (fqn : String) (fm : FeatureMap) (channel : Nat) : Except Err (List Cell) :=
  match mapCells (fun f => channelCell fm f channel) cfl with
  | .error e => .error e
  | .ok cells => .ok (Cell.nat counter :: Cell.str fqn :: Cell.nat channel :: cells)

/-- The channel rows of one module: one row per channel in `range(num_channels)`,
the global entry counter advancing by one per row. -/
def channelRowsChans (cfl : List String) (fqn : String) (fm : FeatureMap) (counter : Nat) : List Nat → Except Err Table
  | [] => .ok []
  | ch :: chs =>
    match channelRow cfl counter fqn fm ch with
    | .error e => .error e
    | .ok row =>
      match channelRowsChans cfl fqn fm (counter + 1) chs with
      | .error e => .error e
      | .ok rest => .ok (row :: rest)

/-- The channel rows of all modules in order; every module iterates over the same
global `range nc`, so the counter advances by `nc` per module. -/
def channelRowsMods (cfl : List String) (nc : Nat) (counter : Nat) : Report → Except Err Table
  | [] => .ok []
  | m :: ms =>
    match channelRowsChans cfl m.1 m.2 counter (List.range nc) with
    | .error e => .error e
    | .ok rows =>
      match channelRowsMods cfl nc (counter + nc) ms with
      | .error e => .error e
      | .ok rest => .ok (rows ++ rest)

/-- The complete channel table: header row then data rows, counter starting at 1. -/
def channelTable (fd : Report) (cfl : List String) (nc : Nat) : Except Err Table :=
  match channelRowsMods cfl nc 1 fd with
  | .error e => .error e
  | .ok rows => .ok (channelHeaders cfl :: rows)

/-- Modelled from the spec: a rendering of one cell by the external
tabular-formatting collaborator (the third-party `tabulate` library, absent from
the sources). -/
def renderCell : Cell → String
  | .nat n => toString n
  | .str s => s
  | .num v => toString v
  | .seq vs => toString vs

/-- Pad a rendered cell to its column width (helper for `tabulate`). -/
def padTo (s : String) (w : Nat) : String :=
  s ++ String.mk (List.replicate (w - s.length) ' ')

/-- Pointwise maximum of two width lists (helper for `tabulate`). -/
def maxCols : List Nat → List Nat → List Nat
  | [], ws => ws
  | vs, [] => vs
  | v :: vs, w :: ws => max v w :: maxCols vs ws

/-- The width of each column of a table (helper for `tabulate`). -/
def tableWidths : Table → List Nat
  | [] => []
  | row :: rows => maxCols (row.map (fun c => (renderCell c).length)) (tableWidths rows)

/-- Render the cells of one row padded to the column widths (helper for `tabulate`). -/
def renderRowCells : List Nat → List Cell → List String
  | _, [] => []
  | [], c :: cs => renderCell c :: renderRowCells [] cs
  | w :: ws, c :: cs => padTo (renderCell c) w :: renderRowCells ws cs

/-- The dashed separator line under the header (helper for `tabulate`). -/
def sepCells (ws : List Nat) : List String :=
  ws.map (fun w => String.mk (List.replicate w '-'))

/-- Modelled from the spec: the external tabular-formatting collaborator
(`tabulate(table, headers="firstrow")`, absent from the sources): a fixed-width,
column-aligned rendering with a dashed separator line under the header row. -/
def tabulate (t : Table) : String :=
  match t with
  | [] => ""
  | header :: rows =>
    let ws := tableWidths (header :: rows)
    String.intercalate "\n"
      (String.intercalate "  " (renderRowCells ws header)
        :: String.intercalate "  " (sepCells ws)
        :: rows.map (fun r => String.intercalate "  " (renderRowCells ws r)))

/-- `ModelReportVisualizer.generate_table_view`: filter, classify, build both
tables, and format the combined string. -/
def generate_table_view (r : Report) (feature_filter : String := "") (module_fqn_filter : String := "") : Except Err (TableDict × String) :=
  let fd := _get_filtered_data r feature_filter module_fqn_filter
  let tfl := tensorFeaturesList fd
  let cfl := channelFeaturesList fd
  let nc := numChannels fd
  match tensorTable fd tfl with
  | .error e => .error e
  | .ok tensor_table =>
    match channelTable fd cfl nc with
    | .error e => .error e
    | .ok channel_table =>
      let s1 := if tfl.length > 0 then "Tensor Level Information \n" ++ tabulate tensor_table else ""
      let s2 := if cfl.length > 0 then s1 ++ "\n\n Channel Level Information \n" ++ tabulate channel_table else s1
      let table_str := if s2 = "" then "No data points to generate table with." else s2
      .ok ([(TABLE_TENSOR_KEY, tensor_table), (TABLE_CHANNEL_KEY, channel_table)], table_str)

/-- The visualizer object: its only state is the report given at construction. -/
structure ModelReportVisualizer where
  generated_reports : Report

/-- The `generate_table_view` method as a state transformer on the object: the
body reads `self.generated_reports` and never assigns to `self`, so the returned
object is the receiver unchanged. -/
def ModelReportVisualizer.generate_table_view_call (v : ModelReportVisualizer) (feature_filter module_fqn_filter : String) : Except Err (TableDict × String) × ModelReportVisualizer :=
  (generate_table_view v.generated_reports feature_filter module_fqn_filter, v)

/-- `ModelReportVisualizer.generate_plot_view`: the body is `pass`, so the call
returns Python `None` without raising. -/
def ModelReportVisualizer.generate_plot_view (v : ModelReportVisualizer) (feature module_fqn_filter : String) : Except Err (Option Table) :=
  .ok none

/-- `ModelReportVisualizer.generate_histogram_view`: the body is `pass`, so the
call returns Python `None` without raising. -/
def ModelReportVisualizer.generate_histogram_view (v : ModelReportVisualizer) (feature module_fqn_filter : String) : Except Err (Option Table) :=
  .ok none

/-! ## Concrete inputs and claim-level predicates -/

/-- Stated from the claim, for comparison with `numChannels`: the length of the
most recently observed iterable feature value in the module-order-then-feature-order
scan of the filtered data, `0` if none. -/
def lastSeenChannelLength (fd : Report) : Nat :=
  match (scanPairs fd).reverse.find? (fun q => isIterable q.2) with
  | some q => seqLen q.2
  | none => 0

/-- The concrete report of the spec scenario:
`{"layer1": {"max": 5.0, "min": 1.0}, "layer2": {"max": 7.0}}`. -/
def demoReport : Report :=
  [("layer1", [("max", .plainScalar 5), ("min", .plainScalar 1)]),
   ("layer2", [("max", .plainScalar 7)])]

/-- Python dict keys are unique within each module's feature map. -/
abbrev nodupKeys (r : Report) : Prop :=
  ∀ m ∈ r, (m.2.map (fun p => p.1)).Nodup

/-- Every occurrence of a feature name that has any iterable occurrence is itself
iterable (no scalar/sequence mixing for one name in the filtered data). -/
abbrev typeConsistent (fd : Report) : Prop :=
  ∀ m ∈ fd, ∀ p ∈ m.2, p.1 ∈ channelFeatureSet fd → isIterable p.2 = true

/-- Every iterable feature occurrence has length equal to the derived `num_channels`. -/
abbrev uniformSeqLen (fd : Report) : Prop :=
  ∀ m ∈ fd, ∀ p ∈ m.2, isIterable p.2 = true → seqLen p.2 = numChannels fd

/-- The concrete report refuting C8 as stated: `f` is a plain scalar in `m1` and a
2-element sequence in `m2`, so every sequence-valued occurrence has length equal to
the derived `num_channels` (= 2), yet the channel row of `m1` indexes a scalar. -/
def cxReportC8 : Report :=
  [("m1", [("f", .plainScalar 3)]), ("m2", [("f", .plainSeq [1, 2])])]

/-! ## Helper lemmas -/

theorem featureMatches_empty (f : String) : featureMatches "" f = true := rfl

theorem moduleMatches_empty (s : String) : moduleMatches "" s = true := rfl

theorem filterFeatures_empty (fm : FeatureMap) : filterFeatures "" fm = fm := by
  induction fm with
  | nil => rfl
  | cons p ps ih => simp [filterFeatures, featureMatches_empty, ih]

theorem get_filtered_data_empty (r : Report) : _get_filtered_data r "" "" = r := by
  induction r with
  | nil => rfl
  | cons m ms ih => simp [_get_filtered_data, moduleMatches_empty, filterFeatures_empty, ih]

theorem filterFeatures_nil_of_no_match (feature_filter : String) (fm : FeatureMap)
    (h : ∀ p ∈ fm, featureMatches feature_filter p.1 = false) :
    filterFeatures feature_filter fm = [] := by
  induction fm with
  | nil => rfl
  | cons p ps ih =>
    have hp := h p (List.mem_cons_self p ps)
    simp [filterFeatures, hp]
    exact ih fun q hq => h q (List.mem_cons_of_mem p hq)

/-! ## Claim theorems (first batch) -/

set_option maxRecDepth 8000 in
/-- C1: on the report `{"layer1": {"max": 5.0, "min": 1.0}, "layer2": {"max": 7.0}}`,
`generate_table_view()` with empty filters produces exactly the expected tensor table,
a channel table that is only the header row, and a formatted string that starts with
"Tensor Level Information" and contains no "Channel Level Information" section. -/
theorem C1_concrete_two_layer_scenario :
    generate_table_view demoReport "" "" =
      Except.ok
        ([(TABLE_TENSOR_KEY,
            [[Cell.str "idx", Cell.str "layer_fqn", Cell.str "max", Cell.str "min"],
             [Cell.nat 1, Cell.str "layer1", Cell.num 5, Cell.num 1],
             [Cell.nat 2, Cell.str "layer2", Cell.num 7, Cell.str "Not Applicable"]]),
          (TABLE_CHANNEL_KEY,
            [[Cell.str "idx", Cell.str "layer_fqn", Cell.str "channel"]])],
         "Tensor Level Information \nidx  layer_fqn  max  min           \n---  ---------  ---  --------------\n1    layer1     5    1             \n2    layer2     7    Not Applicable")
    ∧ startsList "Tensor Level Information".data
        "Tensor Level Information \nidx  layer_fqn  max  min           \n---  ---------  ---  --------------\n1    layer1     5    1             \n2    layer2     7    Not Applicable".data = true
    ∧ containsList "Channel Level Information".data
        "Tensor Level Information \nidx  layer_fqn  max  min           \n---  ---------  ---  --------------\n1    layer1     5    1             \n2    layer2     7    Not Applicable".data = false := by
  refine ⟨rfl, rfl, rfl⟩

/-- C4 counterexample: the claim says both stub views fail with a not-implemented
error on every input, but at this concrete input both calls return normally
(Python `None`, i.e. `.ok none`), not an error. -/
theorem C4_stub_views_counterexample :
    ModelReportVisualizer.generate_plot_view ⟨demoReport⟩ "max" "" = Except.ok none
    ∧ ModelReportVisualizer.generate_histogram_view ⟨demoReport⟩ "max" "" = Except.ok none
    ∧ ModelReportVisualizer.generate_plot_view ⟨demoReport⟩ "max" "" ≠ Except.error Err.notImplementedError
    ∧ ModelReportVisualizer.generate_histogram_view ⟨demoReport⟩ "max" "" ≠ Except.error Err.notImplementedError := by
  refine ⟨rfl, rfl, ?_, ?_⟩ <;> intro h <;> exact Except.noConfusion h

/-- C4 amended: for every input, both stub views return Python `None` (no table),
and in particular never raise and never return a working result. -/
theorem C4_stub_views_return_none (v : ModelReportVisualizer) (feature module_fqn_filter : String) :
    v.generate_plot_view feature module_fqn_filter = Except.ok none
    ∧ v.generate_histogram_view feature module_fqn_filter = Except.ok none :=
  ⟨rfl, rfl⟩

/-- C5: filtering with both filter strings empty returns the report unchanged
(content and order), and a module whose identifier matches the module filter but
none of whose feature names match the feature filter is still present in the
filtered report with an empty feature map. -/
theorem C5_filter_identity_and_empty_modules (r : Report)
    (feature_filter module_fqn_filter fqn : String) (fmap : FeatureMap)
    (hm : (fqn, fmap) ∈ r)
    (hmod : moduleMatches module_fqn_filter fqn = true)
    (hfeat : ∀ p ∈ fmap, featureMatches feature_filter p.1 = false) :
    _get_filtered_data r "" "" = r
    ∧ (fqn, ([] : FeatureMap)) ∈ _get_filtered_data r feature_filter module_fqn_filter := by
  refine ⟨get_filtered_data_empty r, ?_⟩
  induction r with
  | nil => cases hm
  | cons m ms ih =>
    rcases List.mem_cons.mp hm with h | h
    · rw [← h]
      simp only [_get_filtered_data, hmod, if_true]
      rw [filterFeatures_nil_of_no_match feature_filter fmap hfeat]
      exact List.mem_cons_self _ _
    · by_cases hM : moduleMatches module_fqn_filter m.1 = true
      · simp only [_get_filtered_data, hM, if_true]
        exact List.mem_cons_of_mem _ (ih h)
      · simp only [_get_filtered_data, hM, if_false]
        exact ih h

/-- C5 witness at a concrete input. -/
theorem C5_filter_identity_witness :
    _get_filtered_data [("layer1", [("max", FeatureValue.plainScalar 5)])] "" ""
      = [("layer1", [("max", FeatureValue.plainScalar 5)])]
    ∧ ("layer1", ([] : FeatureMap))
        ∈ _get_filtered_data [("layer1", [("max", FeatureValue.plainScalar 5)])] "zzz" "lay" :=
  C5_filter_identity_and_empty_modules
    [("layer1", [("max", FeatureValue.plainScalar 5)])] "zzz" "lay" "layer1"
    [("max", FeatureValue.plainScalar 5)] (by decide) (by decide) (by decide)

/-- C9: the `generate_table_view` method is a pure query: two successive calls with
the same filters return the same output, and neither call changes the stored report. -/
theorem C9_pure_idempotent_query (v : ModelReportVisualizer) (feature_filter module_fqn_filter : String) :
    (v.generate_table_view_call feature_filter module_fqn_filter).1
      = ((v.generate_table_view_call feature_filter module_fqn_filter).2.generate_table_view_call feature_filter module_fqn_filter).1
    ∧ ((v.generate_table_view_call feature_filter module_fqn_filter).2.generate_table_view_call feature_filter module_fqn_filter).2.generated_reports
      = v.generated_reports
    ∧ (v.generate_table_view_call feature_filter module_fqn_filter).2 = v :=
  ⟨rfl, rfl, rfl⟩

theorem numChannelsAux_eq (l : List (String × FeatureValue)) : ∀ acc : Nat,
    numChannelsAux acc l =
      match l.reverse.find? (fun q => isIterable q.2) with
      | some q => seqLen q.2
      | none => acc := by
  induction l with
  | nil => intro acc; rfl
  | cons p ps ih =>
    intro acc
    rw [numChannelsAux, ih]
    rw [List.reverse_cons, List.find?_append]
    cases h : ps.reverse.find? (fun q => isIterable q.2) with
    | some q => simp [h]
    | none =>
      cases hit : isIterable p.2 <;> simp [h, hit, List.find?]

/-- C7: the single, global `num_channels` equals the length of the most recently
observed iterable feature value in the scan of the filtered data (not tracked per
feature or per module), and the channel-table construction iterates every module
over `range` of that same global value. -/
theorem C7_global_num_channels_last_seen (fd : Report) :
    numChannels fd = lastSeenChannelLength fd
    ∧ ∀ (cfl : List String) (c : Nat) (m : String × FeatureMap) (ms : Report),
        channelRowsMods cfl (numChannels fd) c (m :: ms) =
          match channelRowsChans cfl m.1 m.2 c (List.range (numChannels fd)) with
          | .error e => .error e
          | .ok rows =>
            match channelRowsMods cfl (numChannels fd) (c + numChannels fd) ms with
            | .error e => .error e
            | .ok rest => .ok (rows ++ rest) := by
  refine ⟨numChannelsAux_eq (scanPairs fd) 0, ?_⟩
  intro cfl c m ms
  rfl

theorem mem_collect_false (l : List (String × FeatureValue)) (x : String) :
    x ∈ collectFeatureNames false l ↔ ∃ p ∈ l, x = p.1 := by
  induction l with
  | nil => simp [collectFeatureNames]
  | cons p ps ih => simp [collectFeatureNames, ih, List.mem_cons]

theorem mem_collect_true (l : List (String × FeatureValue)) (x : String) :
    x ∈ collectFeatureNames true l ↔ ∃ p ∈ l, x = p.1 ∧ isTensorType p.2 = true := by
  induction l with
  | nil => simp [collectFeatureNames]
  | cons p ps ih =>
    cases h : isTensorType p.2 <;> simp [collectFeatureNames, h, ih, List.mem_cons]

/-- C3: `get_all_unique_feature_names` with `plottable = False` is the union of all
feature names over all modules; with `plottable = True` it keeps exactly the names
that carry a `torch.Tensor` value (0-dim or 1-dim) in at least one module, plain
non-tensor values not qualifying. -/
theorem C3_feature_name_union (r : Report) (x : String) :
    (x ∈ get_all_unique_feature_names r false ↔ ∃ m ∈ r, ∃ v, (x, v) ∈ m.2)
    ∧ (x ∈ get_all_unique_feature_names r true ↔
        ∃ m ∈ r, ∃ v, (x, v) ∈ m.2 ∧ isTensorType v = true) := by
  constructor
  · rw [get_all_unique_feature_names, mem_collect_false]
    simp only [scanPairs, List.mem_flatMap]
    constructor
    · rintro ⟨p, ⟨m, hm, hp⟩, hx⟩
      exact ⟨m, hm, p.2, by rw [hx]; exact hp⟩
    · rintro ⟨m, hm, v, hv⟩
      exact ⟨(x, v), ⟨m, hm, hv⟩, rfl⟩
  · rw [get_all_unique_feature_names, mem_collect_true]
    simp only [scanPairs, List.mem_flatMap]
    constructor
    · rintro ⟨p, ⟨m, hm, hp⟩, hx, ht⟩
      exact ⟨m, hm, p.2, by rw [hx]; exact hp, ht⟩
    · rintro ⟨m, hm, v, hv, ht⟩
      exact ⟨(x, v), ⟨m, hm, hv⟩, rfl, ht⟩

/-! ## Length and inversion lemmas for the table constructions -/

theorem tensorRows_ok_length (tfl : List String) :
    ∀ (fd : Report) (i : Nat) (rows : Table), tensorRows tfl i fd = .ok rows → rows.length = fd.length := by
  intro fd
  induction fd with
  | nil =>
    intro i rows h
    cases h
    rfl
  | cons m ms ih =>
    intro i rows h
    unfold tensorRows at h
    cases h1 : tensorRow tfl i m.1 m.2 with
    | error e => rw [h1] at h; cases h
    | ok row =>
      rw [h1] at h
      cases h2 : tensorRows tfl (i + 1) ms with
      | error e => rw [h2] at h; cases h
      | ok rest =>
        rw [h2] at h
        cases h
        simp [ih (i + 1) rest h2]

theorem channelRowsChans_ok_length (cfl : List String) (fqn : String) (fm : FeatureMap) :
    ∀ (chans : List Nat) (c : Nat) (rows : Table),
      channelRowsChans cfl fqn fm c chans = .ok rows → rows.length = chans.length := by
  intro chans
  induction chans with
  | nil =>
    intro c rows h
    cases h
    rfl
  | cons ch chs ih =>
    intro c rows h
    unfold channelRowsChans at h
    cases h1 : channelRow cfl c fqn fm ch with
    | error e => rw [h1] at h; cases h
    | ok row =>
      rw [h1] at h
      cases h2 : channelRowsChans cfl fqn fm (c + 1) chs with
      | error e => rw [h2] at h; cases h
      | ok rest =>
        rw [h2] at h
        cases h
        simp [ih (c + 1) rest h2]

theorem channelRowsMods_ok_length (cfl : List String) (nc : Nat) :
    ∀ (fd : Report) (c : Nat) (rows : Table),
      channelRowsMods cfl nc c fd = .ok rows → rows.length = fd.length * nc := by
  intro fd
  induction fd with
  | nil =>
    intro c rows h
    cases h
    simp
  | cons m ms ih =>
    intro c rows h
    unfold channelRowsMods at h
    cases h1 : channelRowsChans cfl m.1 m.2 c (List.range nc) with
    | error e => rw [h1] at h; cases h
    | ok rows1 =>
      rw [h1] at h
      cases h2 : channelRowsMods cfl nc (c + nc) ms with
      | error e => rw [h2] at h; cases h
      | ok rest =>
        rw [h2] at h
        cases h
        have e1 : rows1.length = nc := by
          rw [channelRowsChans_ok_length cfl m.1 m.2 (List.range nc) c rows1 h1, List.length_range]
        have e2 : rest.length = ms.length * nc := ih (c + nc) rest h2
        simp [e1, e2, Nat.succ_mul, Nat.add_comm]

theorem numChannelsAux_const (l : List (String × FeatureValue))
    (h : ∀ p ∈ l, isIterable p.2 = false) : ∀ acc : Nat, numChannelsAux acc l = acc := by
  induction l with
  | nil => intro acc; rfl
  | cons p ps ih =>
    intro acc
    rw [numChannelsAux, h p (List.mem_cons_self p ps)]
    exact ih (fun q hq => h q (List.mem_cons_of_mem p hq)) acc

/-- Inverting a successful `generate_table_view` into its two table constructions. -/
theorem generate_table_view_ok_inv (r : Report) (feature_filter module_fqn_filter : String)
    (d : TableDict) (s : String)
    (h : generate_table_view r feature_filter module_fqn_filter = Except.ok (d, s)) :
    ∃ tt ct,
      tensorTable (_get_filtered_data r feature_filter module_fqn_filter)
          (tensorFeaturesList (_get_filtered_data r feature_filter module_fqn_filter)) = .ok tt
      ∧ channelTable (_get_filtered_data r feature_filter module_fqn_filter)
          (channelFeaturesList (_get_filtered_data r feature_filter module_fqn_filter))
          (numChannels (_get_filtered_data r feature_filter module_fqn_filter)) = .ok ct
      ∧ d = [(TABLE_TENSOR_KEY, tt), (TABLE_CHANNEL_KEY, ct)] := by
  simp only [generate_table_view] at h
  cases htt : tensorTable (_get_filtered_data r feature_filter module_fqn_filter)
      (tensorFeaturesList (_get_filtered_data r feature_filter module_fqn_filter)) with
  | error e => rw [htt] at h; cases h
  | ok tt =>
    rw [htt] at h
    cases hct : channelTable (_get_filtered_data r feature_filter module_fqn_filter)
        (channelFeaturesList (_get_filtered_data r feature_filter module_fqn_filter))
        (numChannels (_get_filtered_data r feature_filter module_fqn_filter)) with
    | error e => rw [hct] at h; cases h
    | ok ct =>
      rw [hct] at h
      refine ⟨tt, ct, rfl, rfl, ?_⟩
      cases h
      rfl

theorem tensorTable_ok_inv (fd : Report) (tfl : List String) (tt : Table)
    (h : tensorTable fd tfl = .ok tt) :
    ∃ rows, tensorRows tfl 0 fd = .ok rows ∧ tt = tensorHeaders tfl :: rows := by
  unfold tensorTable at h
  cases hr : tensorRows tfl 0 fd with
  | error e => rw [hr] at h; cases h
  | ok rows =>
    rw [hr] at h
    cases h
    exact ⟨rows, rfl, rfl⟩

theorem channelTable_ok_inv (fd : Report) (cfl : List String) (nc : Nat) (ct : Table)
    (h : channelTable fd cfl nc = .ok ct) :
    ∃ rows, channelRowsMods cfl nc 1 fd = .ok rows ∧ ct = channelHeaders cfl :: rows := by
  unfold channelTable at h
  cases hr : channelRowsMods cfl nc 1 fd with
  | error e => rw [hr] at h; cases h
  | ok rows =>
    rw [hr] at h
    cases h
    exact ⟨rows, rfl, rfl⟩

/-- C2: whenever `generate_table_view` returns, the tensor table has exactly one
header row plus one data row per filtered module (independent of the number of
features), and the channel table has exactly one header row plus
(filtered modules × num_channels) data rows, with `num_channels = 0` when no
filtered feature value is iterable. -/
theorem C2_row_count_invariant (r : Report) (feature_filter module_fqn_filter : String)
    (d : TableDict) (s : String)
    (h : generate_table_view r feature_filter module_fqn_filter = Except.ok (d, s)) :
    ∃ tt ct,
      d = [(TABLE_TENSOR_KEY, tt), (TABLE_CHANNEL_KEY, ct)]
      ∧ tt.length = 1 + (_get_filtered_data r feature_filter module_fqn_filter).length
      ∧ ct.length = 1 + (_get_filtered_data r feature_filter module_fqn_filter).length
            * numChannels (_get_filtered_data r feature_filter module_fqn_filter)
      ∧ ((∀ p ∈ scanPairs (_get_filtered_data r feature_filter module_fqn_filter), isIterable p.2 = false) →
          numChannels (_get_filtered_data r feature_filter module_fqn_filter) = 0) := by
  obtain ⟨tt, ct, htt, hct, hd⟩ :=
    generate_table_view_ok_inv r feature_filter module_fqn_filter d s h
  refine ⟨tt, ct, hd, ?_, ?_, ?_⟩
  · obtain ⟨rows, hrows, httv⟩ := tensorTable_ok_inv _ _ _ htt
    rw [httv]
    have := tensorRows_ok_length _ _ _ _ hrows
    simp [this, Nat.add_comm]
  · obtain ⟨rows, hrows, hctv⟩ := channelTable_ok_inv _ _ _ _ hct
    rw [hctv]
    have := channelRowsMods_ok_length _ _ _ _ _ hrows
    simp [this, Nat.add_comm]
  · intro hall
    exact numChannelsAux_const _ hall 0

/-- C2 witness at a concrete input: one module with no features. -/
theorem C2_row_count_witness :
    ∃ tt ct,
      ([(TABLE_TENSOR_KEY, [[Cell.str "idx", Cell.str "layer_fqn"], [Cell.nat 1, Cell.str "layer1"]]),
        (TABLE_CHANNEL_KEY, [[Cell.str "idx", Cell.str "layer_fqn", Cell.str "channel"]])] : TableDict)
        = [(TABLE_TENSOR_KEY, tt), (TABLE_CHANNEL_KEY, ct)]
      ∧ tt.length = 1 + (_get_filtered_data [("layer1", [])] "" "").length
      ∧ ct.length = 1 + (_get_filtered_data [("layer1", [])] "" "").length
            * numChannels (_get_filtered_data [("layer1", [])] "" "")
      ∧ ((∀ p ∈ scanPairs (_get_filtered_data [("layer1", [])] "" ""), isIterable p.2 = false) →
          numChannels (_get_filtered_data [("layer1", [])] "" "") = 0) :=
  C2_row_count_invariant [("layer1", [])] "" ""
    [(TABLE_TENSOR_KEY, [[Cell.str "idx", Cell.str "layer_fqn"], [Cell.nat 1, Cell.str "layer1"]]),
     (TABLE_CHANNEL_KEY, [[Cell.str "idx", Cell.str "layer_fqn", Cell.str "channel"]])]
    "No data points to generate table with." rfl

theorem sortedFeatureList_eq_nil (l : List String) (h : sortedFeatureList l = []) : l = [] := by
  have hp := List.perm_insertionSort strLeR l.dedup
  rw [sortedFeatureList] at h
  rw [h] at hp
  have : l.dedup = [] := hp.symm.eq_nil
  exact (List.dedup_eq_nil l).mp this

theorem no_iterable_of_channelFeatureSet_nil (fd : Report) (h : channelFeatureSet fd = []) :
    ∀ p ∈ scanPairs fd, isIterable p.2 = false := by
  intro p hp
  by_contra hne
  have hit : isIterable p.2 = true := by
    cases hb : isIterable p.2
    · exact absurd hb hne
    · rfl
  have : p.1 ∈ channelFeatureSet fd := by
    rw [channelFeatureSet]
    exact List.mem_map_of_mem _ (List.mem_filter.mpr ⟨hp, hit⟩)
  rw [h] at this
  cases this

theorem tensorRows_nil_ok : ∀ (fd : Report) (i : Nat), ∃ rows, tensorRows [] i fd = .ok rows := by
  intro fd
  induction fd with
  | nil => exact fun i => ⟨[], rfl⟩
  | cons m ms ih =>
    intro i
    obtain ⟨rest, hrest⟩ := ih (i + 1)
    refine ⟨[Cell.nat (i + 1), Cell.str m.1] :: rest, ?_⟩
    unfold tensorRows
    have hrow : tensorRow [] i m.1 m.2 = .ok [Cell.nat (i + 1), Cell.str m.1] := rfl
    rw [hrow, hrest]

theorem channelRowsMods_zero (cfl : List String) : ∀ (fd : Report) (c : Nat),
    channelRowsMods cfl 0 c fd = .ok [] := by
  intro fd
  induction fd with
  | nil => exact fun c => rfl
  | cons m ms ih =>
    intro c
    unfold channelRowsMods
    have h1 : channelRowsChans cfl m.1 m.2 c (List.range 0) = .ok [] := rfl
    rw [h1, ih (c + 0)]
    rfl

/-- C6: if after filtering and classification both feature lists are empty,
`generate_table_view` returns normally and its formatted string is exactly
"No data points to generate table with.". -/
theorem C6_no_data_message (r : Report) (feature_filter module_fqn_filter : String)
    (h1 : tensorFeaturesList (_get_filtered_data r feature_filter module_fqn_filter) = [])
    (h2 : channelFeaturesList (_get_filtered_data r feature_filter module_fqn_filter) = []) :
    ∃ d, generate_table_view r feature_filter module_fqn_filter
      = Except.ok (d, "No data points to generate table with.") := by
  have hnc : numChannels (_get_filtered_data r feature_filter module_fqn_filter) = 0 := by
    have hset : channelFeatureSet (_get_filtered_data r feature_filter module_fqn_filter) = [] :=
      sortedFeatureList_eq_nil _ h2
    exact numChannelsAux_const _ (no_iterable_of_channelFeatureSet_nil _ hset) 0
  obtain ⟨rows, hrows⟩ := tensorRows_nil_ok (_get_filtered_data r feature_filter module_fqn_filter) 0
  have htt : tensorTable (_get_filtered_data r feature_filter module_fqn_filter) [] = .ok (tensorHeaders [] :: rows) := by
    unfold tensorTable
    rw [hrows]
  have hct : channelTable (_get_filtered_data r feature_filter module_fqn_filter) [] 0 = .ok [channelHeaders []] := by
    unfold channelTable
    rw [channelRowsMods_zero [] _ 1]
  refine ⟨[(TABLE_TENSOR_KEY, tensorHeaders [] :: rows), (TABLE_CHANNEL_KEY, [channelHeaders []])], ?_⟩
  simp only [generate_table_view, h1, h2, hnc, htt, hct]
  simp

/-- C6 witness at a concrete input whose filters match no feature. -/
theorem C6_no_data_witness :
    ∃ d, generate_table_view [("layer1", [("max", FeatureValue.plainScalar 5)])] "zzz" ""
      = Except.ok (d, "No data points to generate table with.") :=
  C6_no_data_message [("layer1", [("max", FeatureValue.plainScalar 5)])] "zzz" "" rfl rfl

/-! ## Order facts for the sorted feature lists -/

theorem lexLe_iff (a b : Char) (as bs : List Char) :
    lexLe (a :: as) (b :: bs) = true ↔
      (a.val.toNat < b.val.toNat ∨ (a.val.toNat = b.val.toNat ∧ lexLe as bs = true)) := by
  simp only [lexLe]
  split_ifs with h1 h2
  · simp [h1]
  · constructor
    · intro h
      cases h
    · rintro (h | ⟨h, _⟩) <;> omega
  · constructor
    · intro h
      exact Or.inr ⟨by omega, h⟩
    · rintro (h | ⟨_, h⟩)
      · omega
      · exact h

theorem lexLe_total : ∀ as bs : List Char, lexLe as bs = true ∨ lexLe bs as = true := by
  intro as
  induction as with
  | nil => intro bs; exact Or.inl rfl
  | cons a as ih =>
    intro bs
    cases bs with
    | nil => exact Or.inr rfl
    | cons b bs =>
      rcases Nat.lt_trichotomy a.val.toNat b.val.toNat with h | h | h
      · exact Or.inl ((lexLe_iff a b as bs).mpr (Or.inl h))
      · rcases ih bs with hr | hr
        · exact Or.inl ((lexLe_iff a b as bs).mpr (Or.inr ⟨h, hr⟩))
        · exact Or.inr ((lexLe_iff b a bs as).mpr (Or.inr ⟨h.symm, hr⟩))
      · exact Or.inr ((lexLe_iff b a bs as).mpr (Or.inl h))

theorem lexLe_trans : ∀ as bs cs : List Char,
    lexLe as bs = true → lexLe bs cs = true → lexLe as cs = true := by
  intro as
  induction as with
  | nil => intro bs cs h1 h2; rfl
  | cons a as ih =>
    intro bs cs h1 h2
    cases bs with
    | nil => cases h1
    | cons b bs =>
      cases cs with
      | nil => cases h2
      | cons c cs =>
        rw [lexLe_iff] at h1 h2 ⊢
        rcases h1 with h1 | ⟨h1e, h1r⟩ <;> rcases h2 with h2 | ⟨h2e, h2r⟩
        · exact Or.inl (by omega)
        · exact Or.inl (by omega)
        · exact Or.inl (by omega)
        · exact Or.inr ⟨by omega, ih bs cs h1r h2r⟩

instance : IsTotal String strLeR :=
  ⟨fun a b => lexLe_total a.data b.data⟩

instance : IsTrans String strLeR :=
  ⟨fun a b c h1 h2 => lexLe_trans a.data b.data c.data h1 h2⟩

theorem sortedFeatureList_pairwise (l : List String) :
    List.Pairwise strLeR (sortedFeatureList l) :=
  List.sorted_insertionSort strLeR l.dedup

/-- C10: whenever `generate_table_view` returns, the bundle is exactly the two
keys "tensor_level_info" and "channel_level_info", each a non-empty table whose
first row is the header: `["idx", "layer_fqn"]` (plus `"channel"` for the channel
table) followed by the feature names in ascending order. -/
theorem C10_bundle_keys_and_headers (r : Report) (feature_filter module_fqn_filter : String)
    (d : TableDict) (s : String)
    (h : generate_table_view r feature_filter module_fqn_filter = Except.ok (d, s)) :
    ∃ trows crows,
      d = [(TABLE_TENSOR_KEY,
              (Cell.str "idx" :: Cell.str "layer_fqn"
                :: (tensorFeaturesList (_get_filtered_data r feature_filter module_fqn_filter)).map Cell.str) :: trows),
           (TABLE_CHANNEL_KEY,
              (Cell.str "idx" :: Cell.str "layer_fqn" :: Cell.str "channel"
                :: (channelFeaturesList (_get_filtered_data r feature_filter module_fqn_filter)).map Cell.str) :: crows)]
      ∧ List.Pairwise strLeR (tensorFeaturesList (_get_filtered_data r feature_filter module_fqn_filter))
      ∧ List.Pairwise strLeR (channelFeaturesList (_get_filtered_data r feature_filter module_fqn_filter)) := by
  obtain ⟨tt, ct, htt, hct, hd⟩ :=
    generate_table_view_ok_inv r feature_filter module_fqn_filter d s h
  obtain ⟨trows, htr, httv⟩ := tensorTable_ok_inv _ _ _ htt
  obtain ⟨crows, hcr, hctv⟩ := channelTable_ok_inv _ _ _ _ hct
  refine ⟨trows, crows, ?_, sortedFeatureList_pairwise _, sortedFeatureList_pairwise _⟩
  rw [hd, httv, hctv]
  rfl

/-! ## C8: channel-length uniformity -/

theorem mem_sortedFeatureList (l : List String) (x : String) :
    x ∈ sortedFeatureList l ↔ x ∈ l := by
  rw [sortedFeatureList, (List.perm_insertionSort strLeR l.dedup).mem_iff, List.mem_dedup]

theorem mem_channelFeatureSet_iff (fd : Report) (f : String) :
    f ∈ channelFeatureSet fd ↔ ∃ m ∈ fd, ∃ v, (f, v) ∈ m.2 ∧ isIterable v = true := by
  rw [channelFeatureSet]
  constructor
  · intro hx
    obtain ⟨p, hp, hpf⟩ := List.mem_map.mp hx
    obtain ⟨hps, hit⟩ := List.mem_filter.mp hp
    obtain ⟨m, hm, hpm⟩ := List.mem_flatMap.mp hps
    refine ⟨m, hm, p.2, ?_, hit⟩
    rw [← hpf]
    exact hpm
  · rintro ⟨m, hm, v, hv, hit⟩
    exact List.mem_map.mpr ⟨(f, v), List.mem_filter.mpr ⟨List.mem_flatMap.mpr ⟨m, hm, hv⟩, hit⟩, rfl⟩

theorem mem_tensorFeatureSet_iff (fd : Report) (f : String) :
    f ∈ tensorFeatureSet fd ↔ ∃ m ∈ fd, ∃ v, (f, v) ∈ m.2 ∧ isIterable v = false := by
  rw [tensorFeatureSet]
  constructor
  · intro hx
    obtain ⟨p, hp, hpf⟩ := List.mem_map.mp hx
    obtain ⟨hps, hit⟩ := List.mem_filter.mp hp
    obtain ⟨m, hm, hpm⟩ := List.mem_flatMap.mp hps
    refine ⟨m, hm, p.2, ?_, by simpa using hit⟩
    rw [← hpf]
    exact hpm
  · rintro ⟨m, hm, v, hv, hit⟩
    exact List.mem_map.mpr
      ⟨(f, v), List.mem_filter.mpr ⟨List.mem_flatMap.mpr ⟨m, hm, hv⟩, by simpa using hit⟩, rfl⟩

theorem lookupFeature_mem_pair (fm : FeatureMap) (f : String) (v : FeatureValue)
    (h : lookupFeature fm f = some v) : (f, v) ∈ fm := by
  unfold lookupFeature at h
  cases hf : fm.find? (fun p => p.1 == f) with
  | none => rw [hf] at h; cases h
  | some p =>
    rw [hf] at h
    injection h with h
    have h1 : p.1 = f := by
      have := List.find?_some hf
      simpa using this
    have hp := List.mem_of_find?_eq_some hf
    obtain ⟨pf, pv⟩ := p
    dsimp at h1 h
    rw [← h1, ← h]
    exact hp

theorem lookupFeature_cons (q : String × FeatureValue) (fm : FeatureMap) (f : String) :
    lookupFeature (q :: fm) f = if q.1 == f then some q.2 else lookupFeature fm f := by
  unfold lookupFeature
  cases hq : (q.1 == f) <;> simp [List.find?_cons, hq]

theorem lookupFeature_nodup (fm : FeatureMap) (f : String) (v : FeatureValue)
    (hnd : (fm.map (fun p => p.1)).Nodup) (hv : (f, v) ∈ fm) :
    lookupFeature fm f = some v := by
  induction fm with
  | nil => cases hv
  | cons q fm ih =>
    rw [lookupFeature_cons]
    rcases List.mem_cons.mp hv with h | h
    · rw [← h]
      simp
    · have hnd' := List.nodup_cons.mp
        (show (q.1 :: fm.map (fun p => p.1)).Nodup from hnd)
      have hq : (q.1 == f) = false := by
        by_contra hne
        have hqf : q.1 = f := by
          cases hb : (q.1 == f)
          · exact absurd hb hne
          · exact eq_of_beq hb
        have : f ∈ fm.map (fun p => p.1) :=
          List.mem_map.mpr ⟨(f, v), h, rfl⟩
        rw [← hqf] at this
        exact hnd'.1 this
      rw [hq]
      simp only [if_false, Bool.false_eq_true]
      exact ih hnd'.2 h

/-! ## Success and failure propagation through the row builders -/

theorem mapCells_ok_of (g : String → Except Err Cell) (fs : List String)
    (h : ∀ f ∈ fs, ∃ c, g f = .ok c) : ∃ cs, mapCells g fs = .ok cs := by
  induction fs with
  | nil => exact ⟨[], rfl⟩
  | cons f fs ih =>
    obtain ⟨c, hc⟩ := h f (List.mem_cons_self f fs)
    obtain ⟨cs, hcs⟩ := ih fun f' hf' => h f' (List.mem_cons_of_mem f hf')
    refine ⟨c :: cs, ?_⟩
    unfold mapCells
    rw [hc, hcs]

theorem mapCells_or (g : String → Except Err Cell) (fs : List String) (e : Err)
    (h : ∀ f ∈ fs, (∃ c, g f = .ok c) ∨ g f = .error e) :
    (∃ cs, mapCells g fs = .ok cs) ∨ mapCells g fs = .error e := by
  induction fs with
  | nil => exact Or.inl ⟨[], rfl⟩
  | cons f fs ih =>
    rcases h f (List.mem_cons_self f fs) with ⟨c, hc⟩ | hc
    · rcases ih (fun f' hf' => h f' (List.mem_cons_of_mem f hf')) with ⟨cs, hcs⟩ | hcs
      · exact Or.inl ⟨c :: cs, by unfold mapCells; rw [hc, hcs]⟩
      · exact Or.inr (by unfold mapCells; rw [hc, hcs])
    · exact Or.inr (by unfold mapCells; rw [hc])

theorem mapCells_err (g : String → Except Err Cell) (fs : List String) (e : Err)
    (hall : ∀ f ∈ fs, (∃ c, g f = .ok c) ∨ g f = .error e)
    (hex : ∃ f ∈ fs, g f = .error e) : mapCells g fs = .error e := by
  induction fs with
  | nil =>
    obtain ⟨f, hf, _⟩ := hex
    cases hf
  | cons f fs ih =>
    obtain ⟨f0, hf0, herr⟩ := hex
    rcases List.mem_cons.mp hf0 with heq | htail
    · unfold mapCells
      rw [heq] at herr
      rw [herr]
    · rcases hall f (List.mem_cons_self f fs) with ⟨c, hc⟩ | hc
      · unfold mapCells
        rw [hc, ih (fun f' hf' => hall f' (List.mem_cons_of_mem f hf')) ⟨f0, htail, herr⟩]
      · unfold mapCells
        rw [hc]

theorem channelRowsChans_ok_of (cfl : List String) (fqn : String) (fm : FeatureMap)
    (chans : List Nat)
    (h : ∀ ch ∈ chans, ∃ cs, mapCells (fun f => channelCell fm f ch) cfl = .ok cs) :
    ∀ c, ∃ rows, channelRowsChans cfl fqn fm c chans = .ok rows := by
  induction chans with
  | nil => exact fun c => ⟨[], rfl⟩
  | cons ch chs ih =>
    intro c
    obtain ⟨cs, hcs⟩ := h ch (List.mem_cons_self ch chs)
    obtain ⟨rest, hrest⟩ := ih (fun ch' hch' => h ch' (List.mem_cons_of_mem ch hch')) (c + 1)
    refine ⟨(Cell.nat c :: Cell.str fqn :: Cell.nat ch :: cs) :: rest, ?_⟩
    unfold channelRowsChans
    have hrow : channelRow cfl c fqn fm ch = .ok (Cell.nat c :: Cell.str fqn :: Cell.nat ch :: cs) := by
      unfold channelRow
      rw [hcs]
    rw [hrow, hrest]

theorem channelRowsChans_or (cfl : List String) (fqn : String) (fm : FeatureMap) (e : Err)
    (chans : List Nat)
    (h : ∀ ch ∈ chans, (∃ cs, mapCells (fun f => channelCell fm f ch) cfl = .ok cs)
        ∨ mapCells (fun f => channelCell fm f ch) cfl = .error e) :
    ∀ c, (∃ rows, channelRowsChans cfl fqn fm c chans = .ok rows)
      ∨ channelRowsChans cfl fqn fm c chans = .error e := by
  induction chans with
  | nil => exact fun c => Or.inl ⟨[], rfl⟩
  | cons ch chs ih =>
    intro c
    rcases h ch (List.mem_cons_self ch chs) with ⟨cs, hcs⟩ | hcs
    · have hrow : channelRow cfl c fqn fm ch = .ok (Cell.nat c :: Cell.str fqn :: Cell.nat ch :: cs) := by
        unfold channelRow
        rw [hcs]
      rcases ih (fun ch' hch' => h ch' (List.mem_cons_of_mem ch hch')) (c + 1) with ⟨rest, hrest⟩ | hrest
      · exact Or.inl ⟨_, by unfold channelRowsChans; rw [hrow, hrest]⟩
      · exact Or.inr (by unfold channelRowsChans; rw [hrow, hrest])
    · have hrow : channelRow cfl c fqn fm ch = .error e := by
        unfold channelRow
        rw [hcs]
      exact Or.inr (by unfold channelRowsChans; rw [hrow])

theorem channelRowsChans_err (cfl : List String) (fqn : String) (fm : FeatureMap) (e : Err)
    (chans : List Nat)
    (hall : ∀ ch ∈ chans, (∃ cs, mapCells (fun f => channelCell fm f ch) cfl = .ok cs)
        ∨ mapCells (fun f => channelCell fm f ch) cfl = .error e)
    (hex : ∃ ch ∈ chans, mapCells (fun f => channelCell fm f ch) cfl = .error e) :
    ∀ c, channelRowsChans cfl fqn fm c chans = .error e := by
  induction chans with
  | nil =>
    obtain ⟨ch, hch, _⟩ := hex
    cases hch
  | cons ch chs ih =>
    intro c
    obtain ⟨ch0, hch0, herr⟩ := hex
    rcases List.mem_cons.mp hch0 with heq | htail
    · have hrow : channelRow cfl c fqn fm ch = .error e := by
        unfold channelRow
        rw [heq] at herr
        rw [herr]
      unfold channelRowsChans
      rw [hrow]
    · rcases hall ch (List.mem_cons_self ch chs) with ⟨cs, hcs⟩ | hcs
      · have hrow : channelRow cfl c fqn fm ch = .ok (Cell.nat c :: Cell.str fqn :: Cell.nat ch :: cs) := by
          unfold channelRow
          rw [hcs]
        unfold channelRowsChans
        rw [hrow, ih (fun ch' hch' => hall ch' (List.mem_cons_of_mem ch hch')) ⟨ch0, htail, herr⟩ (c + 1)]
      · have hrow : channelRow cfl c fqn fm ch = .error e := by
          unfold channelRow
          rw [hcs]
        unfold channelRowsChans
        rw [hrow]

theorem channelRowsMods_ok_of (cfl : List String) (nc : Nat) (fd : Report)
    (h : ∀ m ∈ fd, ∀ ch ∈ List.range nc, ∃ cs, mapCells (fun f => channelCell m.2 f ch) cfl = .ok cs) :
    ∀ c, ∃ rows, channelRowsMods cfl nc c fd = .ok rows := by
  induction fd with
  | nil => exact fun c => ⟨[], rfl⟩
  | cons m ms ih =>
    intro c
    obtain ⟨rows1, hrows1⟩ :=
      channelRowsChans_ok_of cfl m.1 m.2 (List.range nc) (h m (List.mem_cons_self m ms)) c
    obtain ⟨rest, hrest⟩ := ih (fun m' hm' => h m' (List.mem_cons_of_mem m hm')) (c + nc)
    refine ⟨rows1 ++ rest, ?_⟩
    unfold channelRowsMods
    rw [hrows1, hrest]

theorem channelRowsMods_err (cfl : List String) (nc : Nat) (fd : Report) (e : Err)
    (hall : ∀ m ∈ fd, ∀ ch ∈ List.range nc, (∃ cs, mapCells (fun f => channelCell m.2 f ch) cfl = .ok cs)
        ∨ mapCells (fun f => channelCell m.2 f ch) cfl = .error e)
    (hex : ∃ m ∈ fd, ∃ ch ∈ List.range nc, mapCells (fun f => channelCell m.2 f ch) cfl = .error e) :
    ∀ c, channelRowsMods cfl nc c fd = .error e := by
  induction fd with
  | nil =>
    obtain ⟨m, hm, _⟩ := hex
    cases hm
  | cons m ms ih =>
    intro c
    obtain ⟨m0, hm0, ch0, hch0, herr⟩ := hex
    rcases List.mem_cons.mp hm0 with heq | htail
    · have : channelRowsChans cfl m.1 m.2 c (List.range nc) = .error e := by
        apply channelRowsChans_err cfl m.1 m.2 e (List.range nc)
          (hall m (List.mem_cons_self m ms))
        rw [heq] at herr
        exact ⟨ch0, hch0, herr⟩
      unfold channelRowsMods
      rw [this]
    · rcases channelRowsChans_or cfl m.1 m.2 e (List.range nc)
        (hall m (List.mem_cons_self m ms)) c with ⟨rows1, hrows1⟩ | hrows1
      · unfold channelRowsMods
        rw [hrows1, ih (fun m' hm' => hall m' (List.mem_cons_of_mem m hm'))
          ⟨m0, htail, ch0, hch0, herr⟩ (c + nc)]
      · unfold channelRowsMods
        rw [hrows1]

theorem tensorRows_ok_of (tfl : List String) (fd : Report)
    (h : ∀ m ∈ fd, ∃ cs, mapCells (tensorCell m.2) tfl = .ok cs) :
    ∀ i, ∃ rows, tensorRows tfl i fd = .ok rows := by
  induction fd with
  | nil => exact fun i => ⟨[], rfl⟩
  | cons m ms ih =>
    intro i
    obtain ⟨cs, hcs⟩ := h m (List.mem_cons_self m ms)
    obtain ⟨rest, hrest⟩ := ih (fun m' hm' => h m' (List.mem_cons_of_mem m hm')) (i + 1)
    refine ⟨(Cell.nat (i + 1) :: Cell.str m.1 :: cs) :: rest, ?_⟩
    unfold tensorRows
    have hrow : tensorRow tfl i m.1 m.2 = .ok (Cell.nat (i + 1) :: Cell.str m.1 :: cs) := by
      unfold tensorRow
      rw [hcs]
    rw [hrow, hrest]

theorem tensorCell_ok (fd : Report) (m : String × FeatureMap) (f : String)
    (hc : typeConsistent fd) (hm : m ∈ fd) (hf : f ∈ tensorFeaturesList fd) :
    ∃ c, tensorCell m.2 f = .ok c := by
  cases hlk : lookupFeature m.2 f with
  | none => exact ⟨Cell.str "Not Applicable", by simp only [tensorCell, hlk]⟩
  | some v =>
    cases v with
    | plainScalar x => exact ⟨Cell.num x, by simp only [tensorCell, hlk]⟩
    | tensorScalar x => exact ⟨Cell.num x, by simp only [tensorCell, hlk]⟩
    | plainSeq vs => exact ⟨Cell.seq vs, by simp only [tensorCell, hlk]⟩
    | tensorSeq vs =>
      exfalso
      have hmem : (f, FeatureValue.tensorSeq vs) ∈ m.2 := lookupFeature_mem_pair _ _ _ hlk
      have hch : f ∈ channelFeatureSet fd :=
        (mem_channelFeatureSet_iff fd f).mpr ⟨m, hm, _, hmem, rfl⟩
      have hten : f ∈ tensorFeatureSet fd := (mem_sortedFeatureList _ _).mp hf
      obtain ⟨m', hm', v', hv', hni⟩ := (mem_tensorFeatureSet_iff fd f).mp hten
      have := hc m' hm' (f, v') hv' hch
      rw [hni] at this
      cases this

theorem channelCell_ok (fd : Report) (m : String × FeatureMap) (f : String) (ch : Nat)
    (hc : typeConsistent fd) (hu : uniformSeqLen fd) (hm : m ∈ fd)
    (hf : f ∈ channelFeaturesList fd) (hch : ch < numChannels fd) :
    ∃ c, channelCell m.2 f ch = .ok c := by
  cases hlk : lookupFeature m.2 f with
  | none => exact ⟨Cell.str "Not Applicable", by simp only [channelCell, hlk]⟩
  | some v =>
    have hmem : (f, v) ∈ m.2 := lookupFeature_mem_pair _ _ _ hlk
    have hfset : f ∈ channelFeatureSet fd := (mem_sortedFeatureList _ _).mp hf
    have hit : isIterable v = true := hc m hm (f, v) hmem hfset
    cases v with
    | plainScalar x => cases hit
    | tensorScalar x => cases hit
    | plainSeq vs =>
      have hlen : vs.length = numChannels fd := hu m hm (f, .plainSeq vs) hmem rfl
      cases hv : vs[ch]? with
      | some x => exact ⟨Cell.num x, by simp only [channelCell, hlk, hv]⟩
      | none =>
        exfalso
        have hlt : ch < vs.length := by omega
        rw [List.getElem?_eq_getElem hlt] at hv
        cases hv
    | tensorSeq vs =>
      have hlen : vs.length = numChannels fd := hu m hm (f, .tensorSeq vs) hmem rfl
      cases hv : vs[ch]? with
      | some x => exact ⟨Cell.num x, by simp only [channelCell, hlk, hv]⟩
      | none =>
        exfalso
        have hlt : ch < vs.length := by omega
        rw [List.getElem?_eq_getElem hlt] at hv
        cases hv

theorem channelCell_or (fd : Report) (m : String × FeatureMap) (f : String)
    (hc : typeConsistent fd) (hm : m ∈ fd) (hfset : f ∈ channelFeatureSet fd) :
    ∀ ch, (∃ c, channelCell m.2 f ch = .ok c)
      ∨ channelCell m.2 f ch = .error Err.indexError := by
  intro ch
  cases hlk : lookupFeature m.2 f with
  | none => exact Or.inl ⟨Cell.str "Not Applicable", by simp only [channelCell, hlk]⟩
  | some v =>
    have hmem : (f, v) ∈ m.2 := lookupFeature_mem_pair _ _ _ hlk
    have hit : isIterable v = true := hc m hm (f, v) hmem hfset
    cases v with
    | plainScalar x => cases hit
    | tensorScalar x => cases hit
    | plainSeq vs =>
      cases hv : vs[ch]? with
      | some x => exact Or.inl ⟨Cell.num x, by simp only [channelCell, hlk, hv]⟩
      | none => exact Or.inr (by simp only [channelCell, hlk, hv])
    | tensorSeq vs =>
      cases hv : vs[ch]? with
      | some x => exact Or.inl ⟨Cell.num x, by simp only [channelCell, hlk, hv]⟩
      | none => exact Or.inr (by simp only [channelCell, hlk, hv])

theorem tensorTable_ok_of_consistent (fd : Report) (hc : typeConsistent fd) :
    ∃ tt, tensorTable fd (tensorFeaturesList fd) = .ok tt := by
  have hcells : ∀ m ∈ fd, ∃ cs, mapCells (tensorCell m.2) (tensorFeaturesList fd) = .ok cs :=
    fun m hm => mapCells_ok_of _ _ (fun f hf => tensorCell_ok fd m f hc hm hf)
  obtain ⟨rows, hrows⟩ := tensorRows_ok_of _ _ hcells 0
  refine ⟨tensorHeaders (tensorFeaturesList fd) :: rows, ?_⟩
  unfold tensorTable
  rw [hrows]

theorem mem_filtered (r : Report) (feature_filter module_fqn_filter : String)
    (m : String × FeatureMap) (hm : m ∈ _get_filtered_data r feature_filter module_fqn_filter) :
    ∃ m₀ ∈ r, m = (m₀.1, filterFeatures feature_filter m₀.2) := by
  induction r with
  | nil => cases hm
  | cons q ms ih =>
    unfold _get_filtered_data at hm
    by_cases hq : moduleMatches module_fqn_filter q.1 = true
    · rw [if_pos hq] at hm
      rcases List.mem_cons.mp hm with h | h
      · exact ⟨q, List.mem_cons_self q ms, h⟩
      · obtain ⟨m₀, hm₀, he⟩ := ih h
        exact ⟨m₀, List.mem_cons_of_mem q hm₀, he⟩
    · rw [if_neg hq] at hm
      obtain ⟨m₀, hm₀, he⟩ := ih hm
      exact ⟨m₀, List.mem_cons_of_mem q hm₀, he⟩

theorem filterFeatures_sublist (feature_filter : String) (fm : FeatureMap) :
    List.Sublist (filterFeatures feature_filter fm) fm := by
  induction fm with
  | nil => exact List.Sublist.refl []
  | cons p ps ih =>
    unfold filterFeatures
    by_cases hp : featureMatches feature_filter p.1 = true
    · rw [if_pos hp]
      exact ih.cons₂ p
    · rw [if_neg hp]
      exact ih.cons p

theorem nodupKeys_filtered (r : Report) (feature_filter module_fqn_filter : String)
    (hk : nodupKeys r) : nodupKeys (_get_filtered_data r feature_filter module_fqn_filter) := by
  intro m hm
  obtain ⟨m₀, hm₀, he⟩ := mem_filtered r feature_filter module_fqn_filter m hm
  rw [he]
  have hsub := List.Sublist.map (fun p => p.1) (filterFeatures_sublist feature_filter m₀.2)
  exact (hk m₀ hm₀).sublist hsub

/-- C8 counterexample: the claim's hypothesis holds (every module that reports a
sequence-valued feature reports it with length equal to the derived num_channels),
yet `generate_table_view` fails — and with a `TypeError` from indexing a plain
scalar, not an index-out-of-bounds error. -/
theorem C8_mixed_type_counterexample :
    uniformSeqLen (_get_filtered_data cxReportC8 "" "")
    ∧ generate_table_view cxReportC8 "" "" = Except.error Err.typeError := by
  constructor
  · decide
  · rfl

/-- C8 amended: with unique feature keys per module and no scalar/sequence mixing
per feature name in the filtered data, `generate_table_view` succeeds whenever
every sequence-valued occurrence has length equal to the derived `num_channels`,
and fails with an index-out-of-bounds error whenever some filtered module holds a
sequence-valued feature occurrence shorter than `num_channels`. -/
theorem C8_uniform_length_success_or_index_error (r : Report)
    (feature_filter module_fqn_filter : String)
    (hk : nodupKeys r)
    (hc : typeConsistent (_get_filtered_data r feature_filter module_fqn_filter)) :
    (uniformSeqLen (_get_filtered_data r feature_filter module_fqn_filter) →
      ∃ out, generate_table_view r feature_filter module_fqn_filter = Except.ok out)
    ∧ ((∃ m ∈ _get_filtered_data r feature_filter module_fqn_filter, ∃ p ∈ m.2,
          isIterable p.2 = true
          ∧ seqLen p.2 < numChannels (_get_filtered_data r feature_filter module_fqn_filter)) →
        generate_table_view r feature_filter module_fqn_filter = Except.error Err.indexError) := by
  constructor
  · intro hu
    obtain ⟨tt, htt⟩ := tensorTable_ok_of_consistent _ hc
    have hcells : ∀ m ∈ _get_filtered_data r feature_filter module_fqn_filter,
        ∀ ch ∈ List.range (numChannels (_get_filtered_data r feature_filter module_fqn_filter)),
        ∃ cs, mapCells (fun f => channelCell m.2 f ch)
          (channelFeaturesList (_get_filtered_data r feature_filter module_fqn_filter)) = .ok cs := by
      intro m hm ch hch
      exact mapCells_ok_of _ _
        (fun f hf => channelCell_ok _ m f ch hc hu hm hf (List.mem_range.mp hch))
    obtain ⟨rows, hrows⟩ := channelRowsMods_ok_of _ _ _ hcells 1
    have hct : channelTable (_get_filtered_data r feature_filter module_fqn_filter)
        (channelFeaturesList (_get_filtered_data r feature_filter module_fqn_filter))
        (numChannels (_get_filtered_data r feature_filter module_fqn_filter))
        = .ok (channelHeaders (channelFeaturesList (_get_filtered_data r feature_filter module_fqn_filter)) :: rows) := by
      unfold channelTable
      rw [hrows]
    exact ⟨_, by simp only [generate_table_view]; rw [htt, hct]⟩
  · rintro ⟨m, hm, p, hp, hit, hshort⟩
    obtain ⟨f, v⟩ := p
    have hnd : nodupKeys (_get_filtered_data r feature_filter module_fqn_filter) :=
      nodupKeys_filtered r feature_filter module_fqn_filter hk
    have hfset : f ∈ channelFeatureSet (_get_filtered_data r feature_filter module_fqn_filter) :=
      (mem_channelFeatureSet_iff _ f).mpr ⟨m, hm, v, hp, hit⟩
    have hf : f ∈ channelFeaturesList (_get_filtered_data r feature_filter module_fqn_filter) :=
      (mem_sortedFeatureList _ _).mpr hfset
    have hlk : lookupFeature m.2 f = some v := lookupFeature_nodup _ _ _ (hnd m hm) hp
    have hbad : channelCell m.2 f
        (numChannels (_get_filtered_data r feature_filter module_fqn_filter) - 1)
        = .error Err.indexError := by
      cases v with
      | plainScalar x => cases hit
      | tensorScalar x => cases hit
      | plainSeq vs =>
        have hlen : vs.length < numChannels (_get_filtered_data r feature_filter module_fqn_filter) := hshort
        have hnone : vs[numChannels (_get_filtered_data r feature_filter module_fqn_filter) - 1]? = none :=
          List.getElem?_eq_none (by omega)
        simp only [channelCell, hlk, hnone]
      | tensorSeq vs =>
        have hlen : vs.length < numChannels (_get_filtered_data r feature_filter module_fqn_filter) := hshort
        have hnone : vs[numChannels (_get_filtered_data r feature_filter module_fqn_filter) - 1]? = none :=
          List.getElem?_eq_none (by omega)
        simp only [channelCell, hlk, hnone]
    have hallcells : ∀ m' ∈ _get_filtered_data r feature_filter module_fqn_filter,
        ∀ ch ∈ List.range (numChannels (_get_filtered_data r feature_filter module_fqn_filter)),
        (∃ cs, mapCells (fun f' => channelCell m'.2 f' ch)
            (channelFeaturesList (_get_filtered_data r feature_filter module_fqn_filter)) = .ok cs)
        ∨ mapCells (fun f' => channelCell m'.2 f' ch)
            (channelFeaturesList (_get_filtered_data r feature_filter module_fqn_filter))
            = .error Err.indexError := by
      intro m' hm' ch _
      exact mapCells_or _ _ _
        (fun f' hf' => channelCell_or _ m' f' hc hm' ((mem_sortedFeatureList _ _).mp hf') ch)
    have hbadrow : mapCells
        (fun f' => channelCell m.2 f'
          (numChannels (_get_filtered_data r feature_filter module_fqn_filter) - 1))
        (channelFeaturesList (_get_filtered_data r feature_filter module_fqn_filter))
        = .error Err.indexError :=
      mapCells_err _ _ _
        (fun f' hf' => channelCell_or _ m f' hc hm ((mem_sortedFeatureList _ _).mp hf') _)
        ⟨f, hf, hbad⟩
    have hnc1 : 1 ≤ numChannels (_get_filtered_data r feature_filter module_fqn_filter) := by
      have : seqLen v < numChannels (_get_filtered_data r feature_filter module_fqn_filter) := hshort
      omega
    have hmods : channelRowsMods
        (channelFeaturesList (_get_filtered_data r feature_filter module_fqn_filter))
        (numChannels (_get_filtered_data r feature_filter module_fqn_filter)) 1
        (_get_filtered_data r feature_filter module_fqn_filter) = .error Err.indexError :=
      channelRowsMods_err _ _ _ _ hallcells
        ⟨m, hm, numChannels (_get_filtered_data r feature_filter module_fqn_filter) - 1,
          List.mem_range.mpr (by omega), hbadrow⟩ 1
    have hct : channelTable (_get_filtered_data r feature_filter module_fqn_filter)
        (channelFeaturesList (_get_filtered_data r feature_filter module_fqn_filter))
        (numChannels (_get_filtered_data r feature_filter module_fqn_filter))
        = .error Err.indexError := by
      unfold channelTable
      rw [hmods]
    obtain ⟨tt, htt⟩ := tensorTable_ok_of_consistent _ hc
    simp only [generate_table_view]
    rw [htt, hct]

/-- C8 witness: a type-consistent report with uniform sequence lengths, on which
the amended theorem yields a successful table generation. -/
theorem C8_uniform_length_witness :
    nodupKeys [("m1", [("w", FeatureValue.plainSeq [1, 2])]), ("m2", [("w", FeatureValue.plainSeq [3, 4])])]
    ∧ typeConsistent (_get_filtered_data
        [("m1", [("w", FeatureValue.plainSeq [1, 2])]), ("m2", [("w", FeatureValue.plainSeq [3, 4])])] "" "")
    ∧ uniformSeqLen (_get_filtered_data
        [("m1", [("w", FeatureValue.plainSeq [1, 2])]), ("m2", [("w", FeatureValue.plainSeq [3, 4])])] "" "")
    ∧ ∃ out, generate_table_view
        [("m1", [("w", FeatureValue.plainSeq [1, 2])]), ("m2", [("w", FeatureValue.plainSeq [3, 4])])] "" ""
        = Except.ok out :=
  ⟨by decide, by decide, by decide,
    (C8_uniform_length_success_or_index_error
      [("m1", [("w", FeatureValue.plainSeq [1, 2])]), ("m2", [("w", FeatureValue.plainSeq [3, 4])])]
      "" "" (by decide) (by decide)).1 (by decide)⟩

set_option maxRecDepth 8000 in
/-- C10 witness at the concrete two-layer report. -/
theorem C10_bundle_keys_witness :
    ∃ trows crows,
      ([(TABLE_TENSOR_KEY,
          [[Cell.str "idx", Cell.str "layer_fqn", Cell.str "max", Cell.str "min"],
           [Cell.nat 1, Cell.str "layer1", Cell.num 5, Cell.num 1],
           [Cell.nat 2, Cell.str "layer2", Cell.num 7, Cell.str "Not Applicable"]]),
        (TABLE_CHANNEL_KEY,
          [[Cell.str "idx", Cell.str "layer_fqn", Cell.str "channel"]])] : TableDict)
        = [(TABLE_TENSOR_KEY,
              (Cell.str "idx" :: Cell.str "layer_fqn"
                :: (tensorFeaturesList (_get_filtered_data demoReport "" "")).map Cell.str) :: trows),
           (TABLE_CHANNEL_KEY,
              (Cell.str "idx" :: Cell.str "layer_fqn" :: Cell.str "channel"
                :: (channelFeaturesList (_get_filtered_data demoReport "" "")).map Cell.str) :: crows)]
      ∧ List.Pairwise strLeR (tensorFeaturesList (_get_filtered_data demoReport "" ""))
      ∧ List.Pairwise strLeR (channelFeaturesList (_get_filtered_data demoReport "" "")) :=
  C10_bundle_keys_and_headers demoReport "" ""
    [(TABLE_TENSOR_KEY,
        [[Cell.str "idx", Cell.str "layer_fqn", Cell.str "max", Cell.str "min"],
         [Cell.nat 1, Cell.str "layer1", Cell.num 5, Cell.num 1],
         [Cell.nat 2, Cell.str "layer2", Cell.num 7, Cell.str "Not Applicable"]]),
     (TABLE_CHANNEL_KEY,
        [[Cell.str "idx", Cell.str "layer_fqn", Cell.str "channel"]])]
    "Tensor Level Information \nidx  layer_fqn  max  min           \n---  ---------  ---  --------------\n1    layer1     5    1             \n2    layer2     7    Not Applicable"
    rfl
